import Mathlib

/-!
Shallow embedding of the GoMarky to-do widget sources
(`src/source/code/todo-item/todo-item.cpp` and
`src/source/code/todo-list/todo-list.cpp`) together with proofs of the
behavioural claims about them.

Modelling conventions:
* `QString` is modelled as `String`.
* The C++ field `int times_done` is modelled as the `Nat` bit pattern of a
  32-bit two's-complement integer (an element of `[0, 2^32)`); the observable
  signed value is recovered by `intOfBits`.  `times_done += 1` becomes
  `(v + 1) % 2^32`.
* Heap allocation (`new QPushButton`, `new QVBoxLayout`) is modelled with an
  explicit allocator `Heap` that hands out fresh identities, so distinctness
  of allocations is expressible.
* The process-wide global `VectorTodoItem DefaultTodoList` is modelled as an
  explicitly threaded state of type `List TodoItem`; the reference returned
  by `TodoListService::GetTodos` is modelled by the one-constructor type
  `VectorRef` together with `VectorRef.deref`.
* Each C++ member function on a `TodoItem` is modelled as a function that
  also returns the (possibly updated) receiver, so frame conditions
  ("no side effects on the record") are genuine theorems.
-/

namespace GoMarky

/-- Two to the 31st, the first bit pattern whose signed reading is negative. -/
def int32Half : Nat := 2 ^ 31

/-- Two to the 32nd, the modulus of 32-bit machine arithmetic. -/
def int32Mod : Nat := 2 ^ 32

/-- The signed (two's-complement) reading of a 32-bit bit pattern. -/
def intOfBits (v : Nat) : Int :=
  if v < int32Half then (v : Int) else (v : Int) - (int32Mod : Int)

/-- Embedding of `class TodoItem`: fields `name`, `author`, `times_done`
(the latter as a 32-bit bit pattern). -/
structure TodoItem where
  name : String
  author : String
  times_done : Nat
deriving Repr, DecidableEq

/-- Embedding of the default constructor `TodoItem::TodoItem()`:
sets `name = "Chill"`, `author = "Andrew"`, `times_done = 0`. -/
def TodoItem.default : TodoItem :=
  { name := "Chill", author := "Andrew", times_done := 0 }

/-- Embedding of `TodoItem::TodoItem(const QString&, const QString&)`:
stores the two arguments and sets `times_done = 0`. -/
def TodoItem.make (new_name new_author : String) : TodoItem :=
  { name := new_name, author := new_author, times_done := 0 }

/-- Embedding of `QString GetName() const { return name; }`.
The second component is the receiver after the call. -/
def TodoItem.GetName (r : TodoItem) : String × TodoItem :=
  (r.name, r)

/-- Embedding of `QString GetAuthor() const { return author; }`. -/
def TodoItem.GetAuthor (r : TodoItem) : String × TodoItem :=
  (r.author, r)

/-- Embedding of `int GetTimesDone() const { return times_done; }`:
returns the signed reading of the stored 32-bit pattern. -/
def TodoItem.GetTimesDone (r : TodoItem) : Int × TodoItem :=
  (intOfBits r.times_done, r)

/-- Embedding of `void TodoItem::IncreaseTimesDone() { times_done += 1; }`
under 32-bit wraparound semantics. -/
def TodoItem.IncreaseTimesDone (r : TodoItem) : TodoItem :=
  { r with times_done := (r.times_done + 1) % int32Mod }

/-- A `QPushButton`: an allocation identity plus its current label text. -/
structure QPushButton where
  id : Nat
  text : String
deriving Repr, DecidableEq

/-- The allocator state: the next fresh allocation identity. -/
structure Heap where
  nextId : Nat
deriving Repr, DecidableEq

/-- Embedding of `QPushButton* TodoItem::GetLayout() const`:
allocates a new button (`new QPushButton`), sets its text to the record's
name (`button->setText(this->name)`) and returns it.  Also returns the
receiver (unchanged, the method is const) and the allocator state. -/
def TodoItem.GetLayout (r : TodoItem) (h : Heap) : QPushButton × TodoItem × Heap :=
  let button : QPushButton := { id := h.nextId, text := "" }
  let h1 : Heap := { nextId := h.nextId + 1 }
  let button1 : QPushButton := { button with text := r.name }
  (button1, r, h1)

/-- A `QVBoxLayout`: an allocation identity plus the widgets added so far,
in insertion order. -/
structure QVBoxLayout where
  id : Nat
  widgets : List QPushButton
deriving Repr, DecidableEq

/-- The element type of the global `VectorTodoItem DefaultTodoList`. -/
def VectorTodoItem : Type := List TodoItem

/-- Embedding of `class TodoListService` (it has no data members). -/
inductive TodoListService where
  | mk
deriving Repr, DecidableEq

/-- A reference to a `VectorTodoItem`; the only one in the program is the
global `DefaultTodoList`. -/
inductive VectorRef where
  | defaultTodoList
deriving Repr, DecidableEq

/-- Reading a `VectorTodoItem&` against the current contents of the global. -/
def VectorRef.deref : VectorRef → List TodoItem → List TodoItem
  | .defaultTodoList, s => s

/-- Embedding of `VectorTodoItem& TodoListService::GetTodos() const
{ return DefaultTodoList; }`. -/
def TodoListService.GetTodos (_ : TodoListService) : VectorRef :=
  .defaultTodoList

/-- The three sample records appended by `TodoListService::TodoListService()`. -/
def seedBlock : List TodoItem :=
  [TodoItem.make "Clean cat shit" "Andrew",
   TodoItem.make "Wash dishes" "Victoria",
   TodoItem.make "English language homework" "Tatyana"]

/-- Embedding of `TodoListService::TodoListService()`: builds the three
sample records and pushes them onto the global list, in order.  The input
is the current contents of `DefaultTodoList`; the output is the constructed
service and the new contents. -/
def TodoListService.construct (s : List TodoItem) : TodoListService × List TodoItem :=
  let first_todo := TodoItem.make "Clean cat shit" "Andrew"
  let second_todo := TodoItem.make "Wash dishes" "Victoria"
  let third_todo := TodoItem.make "English language homework" "Tatyana"
  (TodoListService.mk, ((s ++ [first_todo]) ++ [second_todo]) ++ [third_todo])

/-- Constructing `n` services in sequence, threading the global list. -/
def constructN : Nat → List TodoItem → List TodoItem
  | 0, s => s
  | n + 1, s => constructN n (TodoListService.construct s).2

/-- The loop body of `TodoListService::GetLayout`: for each item, ask it for
its button and `addWidget` it to the layout, threading the allocator and
collecting the items back (each method call returns its receiver). -/
def addAll : List TodoItem → QVBoxLayout → Heap → QVBoxLayout × List TodoItem × Heap
  | [], layout, h => (layout, [], h)
  | t :: ts, layout, h =>
    let res := t.GetLayout h
    let rest := addAll ts { layout with widgets := layout.widgets ++ [res.1] } res.2.2
    (rest.1, res.2.1 :: rest.2.1, rest.2.2)

/-- Embedding of `QVBoxLayout* TodoListService::GetLayout() const`:
allocates a new vertical layout, reads the shared list through `GetTodos`,
and adds one button per item in list order.  Returns the layout, the list
contents after the call, and the allocator state. -/
def TodoListService.GetLayout (sv : TodoListService) (s : List TodoItem) (h : Heap) :
    QVBoxLayout × List TodoItem × Heap :=
  let layout : QVBoxLayout := { id := h.nextId, widgets := [] }
  let h1 : Heap := { nextId := h.nextId + 1 }
  let todos := (sv.GetTodos).deref s
  addAll todos layout h1

/-- Iterating `IncreaseTimesDone` `k` times. -/
def incN : Nat → TodoItem → TodoItem
  | 0, r => r
  | k + 1, r => incN k r.IncreaseTimesDone

/-- `n` copies of the seed block, as appended by `n` constructions. -/
def seeds : Nat → List TodoItem
  | 0 => []
  | n + 1 => seedBlock ++ seeds n

/-! ## Helper lemmas -/

lemma int32Half_val : int32Half = 2147483648 := by norm_num [int32Half]

lemma int32Mod_val : int32Mod = 4294967296 := by norm_num [int32Mod]

lemma GetTimesDone_fst (r : TodoItem) :
    r.GetTimesDone.1 = intOfBits r.times_done := rfl

lemma make_times_done (n a : String) :
    (TodoItem.make n a).times_done = 0 := rfl

lemma default_times_done : TodoItem.default.times_done = 0 := rfl

lemma increase_times_done (r : TodoItem) :
    r.IncreaseTimesDone.times_done = (r.times_done + 1) % int32Mod := rfl

lemma construct_snd (s : List TodoItem) :
    (TodoListService.construct s).2 = s ++ seedBlock := by
  simp [TodoListService.construct, seedBlock]

lemma seeds_length (n : Nat) : (seeds n).length = 3 * n := by
  induction n with
  | zero => rfl
  | succ n ih => simp [seeds, seedBlock, ih]; omega

lemma constructN_eq (n : Nat) : ∀ s : List TodoItem, constructN n s = s ++ seeds n := by
  induction n with
  | zero => intro s; simp [constructN, seeds]
  | succ n ih => intro s; simp [constructN, construct_snd, ih, seeds]

lemma addAll_spec (ts : List TodoItem) : ∀ (layout : QVBoxLayout) (h : Heap),
    (addAll ts layout h).1.id = layout.id ∧
    (addAll ts layout h).1.widgets.map (fun b => b.text)
      = layout.widgets.map (fun b => b.text) ++ ts.map (fun t => t.name) ∧
    (addAll ts layout h).2.1 = ts := by
  induction ts with
  | nil => intro layout h; simp [addAll]
  | cons t ts ih =>
    intro layout h
    have hih := ih { layout with
        widgets := layout.widgets ++ [{ id := h.nextId, text := t.name }] }
      { nextId := h.nextId + 1 }
    refine ⟨?_, ?_, ?_⟩
    · simpa [addAll, TodoItem.GetLayout] using hih.1
    · simpa [addAll, TodoItem.GetLayout] using hih.2.1
    · simpa [addAll, TodoItem.GetLayout] using hih.2.2

lemma incN_times_done (k : Nat) : ∀ r : TodoItem, r.times_done < int32Mod →
    (incN k r).times_done = (r.times_done + k) % int32Mod := by
  induction k with
  | zero => intro r hr; simp [incN, Nat.mod_eq_of_lt hr]
  | succ k ih =>
    intro r hr
    have hpos : 0 < int32Mod := by rw [int32Mod_val]; omega
    have h2 : (r.times_done + 1) % int32Mod < int32Mod := Nat.mod_lt _ hpos
    have := ih r.IncreaseTimesDone h2
    simp only [incN, TodoItem.IncreaseTimesDone] at this ⊢
    rw [this, Nat.mod_add_mod]
    congr 1
    omega

/-! ## Claim theorems -/

/-- Claim C1: every construction of a TodoListService appends exactly the
three records ("Clean cat shit","Andrew"), ("Wash dishes","Victoria"),
("English language homework","Tatyana"), in that order and with no seeding
check, so constructing N instances appends exactly 3*N records and leaves
the records already in the sequence unchanged. -/
theorem construct_appends_three_per_instance (n : Nat) (s : List TodoItem) :
    (TodoListService.construct s).2 = s ++
      [TodoItem.make "Clean cat shit" "Andrew",
       TodoItem.make "Wash dishes" "Victoria",
       TodoItem.make "English language homework" "Tatyana"] ∧
    (constructN n s).length = s.length + 3 * n ∧
    (constructN n s).take s.length = s := by
  refine ⟨?_, ?_, ?_⟩
  · rw [construct_snd]; rfl
  · rw [constructN_eq]; simp [seeds_length]
  · rw [constructN_eq]; exact List.take_left s (seeds n)

/-- Claim C2: on a shared sequence holding M records, the service's
GetLayout returns a freshly allocated vertical container with exactly M
child controls whose labels are, in order, the names of the records. -/
theorem service_getLayout_renders_all_records (sv : TodoListService)
    (s : List TodoItem) (h : Heap) :
    (sv.GetLayout s h).1.id = h.nextId ∧
    (sv.GetLayout s h).1.widgets.length = s.length ∧
    (sv.GetLayout s h).1.widgets.map (fun b => b.text)
      = s.map (fun t => t.name) := by
  have ha := addAll_spec s { id := h.nextId, widgets := [] } { nextId := h.nextId + 1 }
  refine ⟨?_, ?_, ?_⟩
  · simpa [TodoListService.GetLayout, TodoListService.GetTodos, VectorRef.deref]
      using ha.1
  · have hlen := congrArg List.length ha.2.1
    simpa [TodoListService.GetLayout, TodoListService.GetTodos, VectorRef.deref]
      using hlen
  · simpa [TodoListService.GetLayout, TodoListService.GetTodos, VectorRef.deref]
      using ha.2.1

/-- Claim C3: a record constructed with (n, a) — empty strings included —
has name n, author a and times-done 0; the default-constructed record has
name "Chill", author "Andrew" and times-done 0. -/
theorem todoItem_constructors_initialize_fields (n a : String) :
    (TodoItem.make n a).GetName.1 = n ∧
    (TodoItem.make n a).GetAuthor.1 = a ∧
    (TodoItem.make n a).GetTimesDone.1 = 0 ∧
    TodoItem.default.GetName.1 = "Chill" ∧
    TodoItem.default.GetAuthor.1 = "Andrew" ∧
    TodoItem.default.GetTimesDone.1 = 0 := by
  refine ⟨rfl, rfl, ?_, rfl, rfl, ?_⟩ <;>
    simp [TodoItem.GetTimesDone, TodoItem.make, TodoItem.default, intOfBits,
      int32Half_val]

/-- Claim C4 counterexample: after exactly 2^31 calls to IncreaseTimesDone
on a freshly constructed record, GetTimesDone does not return 2^31 (the
stored 32-bit value has wrapped to the negative range). -/
theorem getTimesDone_wraps_at_two_pow_31 :
    (incN (2 ^ 31) (TodoItem.make "Clean cat shit" "Andrew")).GetTimesDone.1
      ≠ ((2 : Int) ^ 31) := by
  have h := incN_times_done (2 ^ 31) (TodoItem.make "Clean cat shit" "Andrew")
    (by rw [make_times_done, int32Mod_val]; omega)
  rw [GetTimesDone_fst, h, make_times_done]
  norm_num [intOfBits, int32Half_val, int32Mod_val]

/-- Claim C4 amended: for every freshly constructed record and every k with
0 ≤ k < 2^31, after k calls to IncreaseTimesDone, GetTimesDone returns k
(beyond that the 32-bit counter wraps). -/
theorem getTimesDone_counts_increments_below_wrap (n a : String) (k : Nat)
    (hk : k < 2 ^ 31) :
    (incN k (TodoItem.make n a)).GetTimesDone.1 = (k : Int) := by
  have h := incN_times_done k (TodoItem.make n a)
    (by show (0 : Nat) < int32Mod; rw [int32Mod_val]; omega)
  have hp31 : (2 : Nat) ^ 31 = 2147483648 := by norm_num
  show intOfBits (incN k (TodoItem.make n a)).times_done = (k : Int)
  rw [h]
  show intOfBits ((0 + k) % int32Mod) = (k : Int)
  have hk2 : (0 + k) % int32Mod = k := by rw [int32Mod_val]; omega
  have hlt : k < int32Half := by rw [int32Half_val]; omega
  rw [hk2]
  unfold intOfBits
  rw [if_pos hlt]

/-- Claim C4 amended witness at k = 5. -/
theorem getTimesDone_counts_increments_below_wrap_witness :
    5 < 2 ^ 31 ∧
    (incN 5 (TodoItem.make "Wash dishes" "Victoria")).GetTimesDone.1 = (5 : Int) :=
  ⟨by norm_num,
   getTimesDone_counts_increments_below_wrap "Wash dishes" "Victoria" 5 (by norm_num)⟩

/-- Claim C5 counterexample: on the record reached from the default
constructor by 2^31 - 1 increments, one more IncreaseTimesDone strictly
decreases the observable counter (it wraps from 2^31 - 1 to -2^31), so the
counter is not monotonically non-decreasing over all operation sequences. -/
theorem increaseTimesDone_decreases_at_intMax :
    ((incN (2 ^ 31 - 1) TodoItem.default).IncreaseTimesDone).GetTimesDone.1
      < (incN (2 ^ 31 - 1) TodoItem.default).GetTimesDone.1 := by
  have h := incN_times_done (2 ^ 31 - 1) TodoItem.default
    (by rw [default_times_done, int32Mod_val]; omega)
  rw [GetTimesDone_fst, GetTimesDone_fst, increase_times_done, h,
    default_times_done]
  norm_num [intOfBits, int32Half_val, int32Mod_val]

/-- Claim C5 amended: times-done starts at 0 for both constructors, every
accessor and the rendering call leave the record unchanged, and
IncreaseTimesDone does not decrease the observable counter provided the
stored 32-bit pattern is not the maximum positive value 2^31 - 1 (there it
wraps to -2^31). -/
theorem counter_monotone_below_intMax (n a : String) (r : TodoItem) (h : Heap)
    (hw : r.times_done < int32Mod) (hmax : r.times_done ≠ int32Half - 1) :
    (TodoItem.make n a).times_done = 0 ∧
    TodoItem.default.times_done = 0 ∧
    r.GetName.2 = r ∧ r.GetAuthor.2 = r ∧ r.GetTimesDone.2 = r ∧
    (r.GetLayout h).2.1 = r ∧
    r.GetTimesDone.1 ≤ r.IncreaseTimesDone.GetTimesDone.1 := by
  refine ⟨rfl, rfl, rfl, rfl, rfl, rfl, ?_⟩
  rw [int32Mod_val] at hw
  rw [int32Half_val] at hmax
  show intOfBits r.times_done ≤ intOfBits ((r.times_done + 1) % int32Mod)
  unfold intOfBits
  rw [int32Half_val, int32Mod_val]
  split_ifs <;> omega

/-- Claim C5 amended witness at the default record. -/
theorem counter_monotone_below_intMax_witness :
    TodoItem.default.times_done < int32Mod ∧
    TodoItem.default.times_done ≠ int32Half - 1 ∧
    TodoItem.default.GetTimesDone.1
      ≤ TodoItem.default.IncreaseTimesDone.GetTimesDone.1 :=
  ⟨by decide, by decide,
   (counter_monotone_below_intMax "Chill" "Andrew" TodoItem.default
     { nextId := 0 } (by decide) (by decide)).2.2.2.2.2.2⟩

/-- Claim C6: GetTodos on any service instance returns the same single
reference to the live shared sequence (not a copy): dereferencing it yields
the current contents, and the append performed by constructing another
service is observed through a previously obtained result of the accessor. -/
theorem getTodos_returns_live_shared_sequence (s1 s2 : TodoListService)
    (s : List TodoItem) :
    s1.GetTodos = s2.GetTodos ∧
    (s1.GetTodos).deref s = s ∧
    (s1.GetTodos).deref (TodoListService.construct s).2 = s ++ seedBlock := by
  refine ⟨rfl, rfl, ?_⟩
  show (TodoListService.construct s).2 = s ++ seedBlock
  exact construct_snd s

/-- Claim C7: each GetLayout call on a record allocates a new, distinct
control labeled with the record's current name; two successive calls on
the same record return two distinct controls, both labeled with the name. -/
theorem getLayout_allocates_distinct_controls (r : TodoItem) (h : Heap) :
    (r.GetLayout h).1 ≠ (r.GetLayout (r.GetLayout h).2.2).1 ∧
    (r.GetLayout h).1.text = r.name ∧
    (r.GetLayout (r.GetLayout h).2.2).1.text = r.name := by
  refine ⟨?_, rfl, rfl⟩
  intro heq
  have h2 := congrArg QPushButton.id heq
  simp [TodoItem.GetLayout] at h2

/-- Claim C8: the accessors GetName, GetAuthor and GetTimesDone are total,
return the corresponding current field value, and leave the record's entire
state unchanged. -/
theorem accessors_no_side_effects (r : TodoItem) :
    r.GetName.1 = r.name ∧ r.GetName.2 = r ∧
    r.GetAuthor.1 = r.author ∧ r.GetAuthor.2 = r ∧
    r.GetTimesDone.1 = intOfBits r.times_done ∧ r.GetTimesDone.2 = r :=
  ⟨rfl, rfl, rfl, rfl, rfl, rfl⟩

/-- Claim C9: rendering is read-only — the service's GetLayout leaves the
shared sequence unchanged (same records, same order), and a record's
GetLayout leaves the record (name, author, times-done) unchanged. -/
theorem rendering_leaves_state_unchanged (sv : TodoListService)
    (s : List TodoItem) (h : Heap) (r : TodoItem) :
    (sv.GetLayout s h).2.1 = s ∧ (r.GetLayout h).2.1 = r := by
  refine ⟨?_, rfl⟩
  have ha := (addAll_spec s { id := h.nextId, widgets := [] }
    { nextId := h.nextId + 1 }).2.2
  simpa [TodoListService.GetLayout, TodoListService.GetTodos, VectorRef.deref]
    using ha

/-- Claim C10: the completion counter is a fixed-width 32-bit signed
machine integer: 2^31 increments on a freshly constructed record make
GetTimesDone return a negative value, namely -2^31. -/
theorem counter_is_32bit_signed (n a : String) :
    (incN (2 ^ 31) (TodoItem.make n a)).GetTimesDone.1 < 0 ∧
    (incN (2 ^ 31) (TodoItem.make n a)).GetTimesDone.1 = -((2 : Int) ^ 31) := by
  have h := incN_times_done (2 ^ 31) (TodoItem.make n a)
    (by rw [make_times_done, int32Mod_val]; omega)
  have key : (incN (2 ^ 31) (TodoItem.make n a)).GetTimesDone.1
      = -((2 : Int) ^ 31) := by
    rw [GetTimesDone_fst, h, make_times_done]
    norm_num [intOfBits, int32Half_val, int32Mod_val]
  refine ⟨?_, key⟩
  rw [key]
  norm_num

end GoMarky
